import Mathlib

set_option maxRecDepth 8000

/-
Shallow embedding of kmyk/AtCoderProblemsStatic.

The scraper (src/scraper/main.py) maintains a local mirror of AtCoder
submissions in a relational store with tables users, submissions and
renamed; the exporter (src/exporter/main.py) publishes JSON snapshots of
that store.  The store is modelled as explicit lists of rows, the remote
judge as an oracle structure (its paginated per-contest feed, the HTTP
status answered for a single submission page, and the record obtained by
re-scraping a submission).  Unbounded while-loops of the source are
modelled with explicit fuel; every definition follows the corresponding
Python function line by line.
-/

namespace AtCoderProblemsStatic

/-- A submission as fetched from the remote judge: the fields that
`insert_submission` (src/scraper/main.py:126-158) reads off an
`AtCoderSubmission` object before writing the row. -/
structure RemoteSub where
  submission_id : Nat
  contest_id : String
  task_id : String
  user_id : String
  submitted_at : Int
  language_name : String
  score : Int
  code_size : Nat
  status : String
  execution_time : Option Nat
  memory_consumed : Option Nat
deriving DecidableEq, Repr

/-- A stored row of the submissions table.  `inserted_at` is the row
creation timestamp read by the exporter (src/exporter/main.py:145); the
scraper's INSERT does not list the column, so it is filled by the store
at insertion time (the schema file is not part of src/). -/
structure SubmissionRow where
  submission_id : Nat
  contest_id : String
  task_id : String
  user_id : String
  submitted_at : Int
  language_name : String
  score : Int
  code_size : Nat
  status : String
  execution_time : Option Nat
  memory_consumed : Option Nat
  inserted_at : Int
deriving DecidableEq, Repr

/-- The local store: the three tables the submission pipeline touches.
Lists keep insertion order, mirroring row creation order. -/
structure DB where
  users : List String
  submissions : List SubmissionRow
  renamed : List (String × String)
deriving DecidableEq, Repr

/-- The remote judge as an oracle: per-contest submission feed in
creation order (`iterate_submissions_where(order='created', desc=False)`),
the HTTP status returned for a single submission's page
(src/scraper/main.py:183-184), the record obtained by re-scraping a
submission, and the wall clock filling `inserted_at`. -/
structure Remote where
  feed : String → List RemoteSub
  status : String → Nat → Nat
  fetch : String → Nat → RemoteSub
  now : Int

/-- Page size of the remote submission listing (src/scraper/main.py:114). -/
def SUBMISSIONS_IN_PAGE : Nat := 20

/-- Insertion into an ascending list by a Nat key; models ORDER BY. -/
def insertAscBy (key : α → Nat) (x : α) : List α → List α
  | [] => [x]
  | y :: ys => if key x ≤ key y then x :: y :: ys else y :: insertAscBy key x ys

/-- Insertion sort by a Nat key; models ORDER BY submission_id. -/
def sortAscBy (key : α → Nat) : List α → List α
  | [] => []
  | x :: xs => insertAscBy key x (sortAscBy key xs)

/-- `get_next_page` (src/scraper/main.py:117-123): local row count for the
contest divided by the page size, plus one. -/
def get_next_page (c : String) (db : DB) : Nat :=
  (db.submissions.filter (fun r => r.contest_id == c)).length / SUBMISSIONS_IN_PAGE + 1

/-- `load_user_id_for_submission` (src/scraper/main.py:249-255): the stored
user_id of the row with the given submission identifier. -/
def load_user_id_for_submission (sid : Nat) (db : DB) : Option String :=
  (db.submissions.find? (fun r => r.submission_id == sid)).map (fun r => r.user_id)

/-- Modelled from the spec: the INSERT into `renamed` at
src/scraper/main.py:164-167 uses ON CONFLICT DO NOTHING against the
table's constraint, and the table schema is not part of src/.  Per the
spec (§3, §4.3) RenameEdge is right-unique — each source handle has at
most one outgoing edge — so the conflict key is the source handle: an
insert for a handle that already has an outgoing edge is a no-op. -/
def insert_rename_edge (src dst : String) (edges : List (String × String)) :
    List (String × String) :=
  if (edges.find? (fun e => e.1 == src)).isSome then edges else edges ++ [(src, dst)]

/-- Builds the stored row from a fetched submission
(src/scraper/main.py:136-149); memory is scaled by 1000 as in line 148,
and `inserted_at` is stamped with the store clock. -/
def toRow (now : Int) (s : RemoteSub) : SubmissionRow :=
  { submission_id := s.submission_id
    contest_id := s.contest_id
    task_id := s.task_id
    user_id := s.user_id
    submitted_at := s.submitted_at
    language_name := s.language_name
    score := s.score
    code_size := s.code_size
    status := s.status
    execution_time := s.execution_time
    memory_consumed := s.memory_consumed.map (fun m => m / 1000)
    inserted_at := now }

/-- `insert_submission` (src/scraper/main.py:126-170): upsert the user,
upsert the submission row (ON CONFLICT DO NOTHING on the submission
identifier), and on a non-novel write compare the stored user_id with the
fetched one, recording a rename edge when they differ.  Returns the
was-novel flag. -/
def insert_submission (now : Int) (s : RemoteSub) (db : DB) : Bool × DB :=
  let users2 := if db.users.contains s.user_id then db.users else db.users ++ [s.user_id]
  let novel := (db.submissions.find? (fun r => r.submission_id == s.submission_id)).isNone
  let subs2 := if novel then db.submissions ++ [toRow now s] else db.submissions
  let renamed2 :=
    if novel then db.renamed
    else
      match load_user_id_for_submission s.submission_id db with
      | none => db.renamed
      | some stored =>
        if stored == s.user_id then db.renamed
        else insert_rename_edge stored s.user_id db.renamed
  (novel, { users := users2, submissions := subs2, renamed := renamed2 })

/-- `load_latest_user_id` (src/scraper/main.py:258-267): follow rename
edges until a handle has none.  The source loops unboundedly; the model
takes fuel, and `none` marks fuel exhaustion (the source spinning). -/
def load_latest_user_id (edges : List (String × String)) : Nat → String → Option String
  | 0, _ => none
  | fuel + 1, u =>
    match edges.find? (fun e => e.1 == u) with
    | none => some u
    | some e => load_latest_user_id edges fuel e.2

/-- `is_user_deleted` (src/scraper/main.py:173-188): only meaningful for a
handle that resolves to itself; re-fetch one stored submission of the
user and report deletion exactly when the HTTP status is not 200.  On a
200 status the re-scraped record is upserted (possibly recording a
rename) and the account is reported alive.  `none` models the source
raising (no stored submission for the user) or spinning in the alias
walk. -/
def is_user_deleted (remote : Remote) (u : String) (db : DB) : Option (Bool × DB) :=
  match load_latest_user_id db.renamed (db.renamed.length + 1) u with
  | none => none
  | some latest =>
    if latest != u then some (false, db)
    else
      match db.submissions.find? (fun r => r.user_id == u) with
      | none => none
      | some row =>
        if remote.status row.contest_id row.submission_id == 200 then
          some (false, (insert_submission remote.now
            (remote.fetch row.contest_id row.submission_id) db).2)
        else some (true, db)

/-- `apply_deleted_user` (src/scraper/main.py:191-200): assert that the
account is gone, then delete the rows whose stored user_id equals the
handle.  `none` models a failed assertion or a raised exception. -/
def apply_deleted_user (remote : Remote) (u : String) (db : DB) : Option DB :=
  match is_user_deleted remote u db with
  | some (true, db2) =>
    some { db2 with submissions := db2.submissions.filter (fun r => !(r.user_id == u)) }
  | _ => none

/-- `get_expected_submissions` (src/scraper/main.py:203-211): stored
submission identifiers of the contest ordered ascending, from offset
`(page-1)*SUBMISSIONS_IN_PAGE`, optionally limited. -/
def get_expected_submissions (c : String) (page : Nat) (limit : Option Nat) (db : DB) :
    List Nat :=
  let ids := sortAscBy (fun n => n)
    ((db.submissions.filter (fun r => r.contest_id == c)).map (fun r => r.submission_id))
  let dropped := ids.drop ((page - 1) * SUBMISSIONS_IN_PAGE)
  match limit with
  | none => dropped
  | some k => dropped.take k

/-- The pairwise walk of `is_submissions_page_broken`
(src/scraper/main.py:220-227): upsert each remote submission, then flag
the slot broken when a present local identifier is larger (missing local
rows) or smaller (upstream deletion) than the remote one. -/
def page_walk (now : Int) : List (Option Nat × RemoteSub) → Bool → DB → Bool × DB
  | [], flag, db => (flag, db)
  | (e, s) :: rest, flag, db =>
    let db2 := (insert_submission now s db).2
    let flag2 :=
      match e with
      | none => flag
      | some eid =>
        if s.submission_id < eid then true
        else if eid < s.submission_id then true
        else flag
    page_walk now rest flag2 db2

/-- The local side `a` of `is_submissions_page_broken`
(src/scraper/main.py:217): the expected page slice padded to the page size
with absent sentinels and truncated to exactly the page size. -/
def expected_slots (c : String) (page : Nat) (db : DB) : List (Option Nat) :=
  ((get_expected_submissions c page (some SUBMISSIONS_IN_PAGE) db).map some
    ++ List.replicate SUBMISSIONS_IN_PAGE none).take SUBMISSIONS_IN_PAGE

/-- The remote side `b` of `is_submissions_page_broken`
(src/scraper/main.py:218-219): the first page-size submissions of the
remote feed from the probed page onward, sorted by identifier. -/
def remote_slots (remote : Remote) (c : String) (page : Nat) : List RemoteSub :=
  sortAscBy (fun s => s.submission_id)
    (((remote.feed c).drop ((page - 1) * SUBMISSIONS_IN_PAGE)).take SUBMISSIONS_IN_PAGE)

/-- `is_submissions_page_broken` (src/scraper/main.py:214-228): compare the
expected local page slice against the remote slice for the same page,
walking pairwise with `page_walk`. -/
def is_submissions_page_broken (remote : Remote) (c : String) (page : Nat) (db : DB) :
    Bool × DB :=
  page_walk remote.now ((expected_slots c page db).zip (remote_slots remote c page)) false db

/-- The binary-search loop of `find_lost_submissions_for_contest`
(src/scraper/main.py:239-245).  `choose` stands for `random.randint`; its
value is clamped into the open interval `(l, r)` exactly as the call
`random.randint(l + 1, r - 1)` guarantees.  The interval shrinks every
iteration, so fuel `r - l` (the caller passes `r`) is never exhausted. -/
def bsearch_go (choose : Nat → Nat → Nat) (remote : Remote) (c : String) :
    Nat → Nat → Nat → DB → Nat × DB
  | 0, _, r, db => (r, db)
  | fuel + 1, l, r, db =>
    if r - l ≤ 1 then (r, db)
    else
      let m := min (max (choose l r) (l + 1)) (r - 1)
      let res := is_submissions_page_broken remote c m db
      if res.1 then bsearch_go choose remote c fuel l m res.2
      else bsearch_go choose remote c fuel m r res.2

/-- `find_lost_submissions_for_contest` (src/scraper/main.py:231-246): if
there is no data, or the boundary page `next_page - 1` is not broken,
report no divergence; otherwise binary-search the open interval
`(0, next_page)` with the stateful brokenness probe. -/
def find_lost_submissions_for_contest (choose : Nat → Nat → Nat) (remote : Remote)
    (c : String) (db : DB) : Option Nat × DB :=
  let r := get_next_page c db
  if r = 1 then (none, db)
  else
    let res := is_submissions_page_broken remote c (r - 1) db
    if res.1 then
      let res2 := bsearch_go choose remote c r 0 r res.2
      (some res2.1, res2.2)
    else (none, res.2)

/-- `delete_submissions_around` (src/scraper/main.py:270-283): delete the
rows of the contest whose identifiers fall in the window of
`2*SIZE + 1` pages starting at page `max 1 (page - SIZE)`, and return that
start page. -/
def delete_submissions_around (c : String) (page : Nat) (db : DB) : Nat × DB :=
  let SIZE : Nat := 10
  let startPage := max 1 (page - SIZE)
  let doomed := ((sortAscBy (fun n => n)
      ((db.submissions.filter (fun r => r.contest_id == c)).map
        (fun r => r.submission_id))).drop
      ((startPage - 1) * SUBMISSIONS_IN_PAGE)).take ((2 * SIZE + 1) * SUBMISSIONS_IN_PAGE)
  (startPage,
    { db with submissions := db.submissions.filter (fun r => !(doomed.contains r.submission_id)) })

/-- The exploration-credit budget `INSERTED_MAX = 15 * SUBMISSIONS_IN_PAGE`
of `recovery_lost_submissions_from` (src/scraper/main.py:294). -/
def INSERTED_MAX : Nat := 15 * SUBMISSIONS_IN_PAGE

/-- The rescan loop of `recovery_lost_submissions_from`
(src/scraper/main.py:296-303): upsert each streamed submission, add 7
credit (capped at `INSERTED_MAX`) on a novel insert, subtract 1 (floored
at 0 by Nat subtraction, as `max(0, inserted - 1)`) otherwise, and stop at
the first page boundary at which the credit is zero.  Returns the store
and the number of stream elements consumed. -/
def recovery_go (now : Int) : List RemoteSub → Nat → Nat → DB → DB × Nat
  | [], i, _, db => (db, i)
  | s :: rest, i, inserted, db =>
    let res := insert_submission now s db
    let inserted2 := if res.1 then min INSERTED_MAX (inserted + 7) else inserted - 1
    if (i + 1) % SUBMISSIONS_IN_PAGE == 0 && inserted2 == 0 then (res.2, i + 1)
    else recovery_go now rest (i + 1) inserted2 res.2

/-- The rescan of `recovery_lost_submissions_from` seeded with the full
budget on the remote stream from the given page onward
(src/scraper/main.py:294-296). -/
def recovery_rescan (remote : Remote) (c : String) (page : Nat) (db : DB) : DB × Nat :=
  recovery_go remote.now ((remote.feed c).drop ((page - 1) * SUBMISSIONS_IN_PAGE))
    0 INSERTED_MAX db

/-- One step of the rename-chain walk that `load_latest_user_id` performs:
the first stored edge whose source is the handle, as `fetchone` on
`SELECT user_id_to FROM renamed WHERE user_id_from = %s` selects it. -/
def rename_step (edges : List (String × String)) (u v : String) : Prop :=
  ∃ e, edges.find? (fun p => p.1 == u) = some e ∧ e.2 = v

/-- Acyclicity of the rename-edge walk: no handle reaches itself by
following one or more `rename_step` steps. -/
def AcyclicEdges (edges : List (String × String)) : Prop :=
  ∀ u, ¬ Relation.TransGen (rename_step edges) u u

/-- `iterate_aliases_for_user`'s backward walk (src/exporter/main.py:120-130):
starting from a canonical handle, repeatedly step to the source of an edge
pointing at the current handle, yielding each handle visited.  The source
loops unboundedly; the model takes fuel and stops yielding further aliases
when it runs out. -/
def alias_walk (edges : List (String × String)) : Nat → String → List String
  | 0, u => [u]
  | fuel + 1, u =>
    u :: (match edges.find? (fun e => e.2 == u) with
          | none => []
          | some e => alias_walk edges fuel e.1)

/-- `iterate_aliases_for_user` (src/exporter/main.py:113-130): a handle
that is itself the source of a rename edge is superseded and yields no
aliases; otherwise walk edges backwards collecting all historical
handles. -/
def iterate_aliases_for_user (u : String) (db : DB) : List String :=
  if (db.renamed.find? (fun e => e.1 == u)).isSome then []
  else alias_walk db.renamed (db.renamed.length + 1) u

/-- The staleness timestamp of `export_submissions_for_user`
(src/exporter/main.py:143-152): the most recent `inserted_at` among the
owned rows (`ORDER BY inserted_at DESC LIMIT 1`), falling back to the
current time when there are none. -/
def max_inserted_at (now : Int) (rows : List SubmissionRow) : Int :=
  match rows.map (fun r => r.inserted_at) with
  | [] => now
  | t :: ts => ts.foldl max t

/-- Modelled from the spec: the staleness timestamp the spec describes
for the Snapshotter (§4.4, §8) — the most recent `submitted_at` among the
owned rows — stated here only to compare the spec's comparator with the
source's `max_inserted_at`. -/
def spec_latest_submitted_at (now : Int) (rows : List SubmissionRow) : Int :=
  match rows.map (fun r => r.submitted_at) with
  | [] => now
  | t :: ts => ts.foldl max t

/-- The outcome of one `export_submissions_for_user` run on a user's
snapshot file: leave it untouched, remove it, or regenerate it with the
given rows. -/
inductive ExportAction
  | noWrite
  | removeFile
  | writeRows (rows : List SubmissionRow)
deriving DecidableEq, Repr

/-- `export_submissions_for_user` (src/exporter/main.py:133-200) as a
function from the store, the snapshot file's modification time (if the
file exists) and the clock to the action taken: no aliases → remove any
existing file; file newer than the latest `inserted_at` → leave it; no
owned rows → remove any existing file; otherwise regenerate from the
owned rows ordered by submission identifier. -/
def export_submissions_for_user (now : Int) (u : String) (db : DB) (file : Option Int) :
    ExportAction :=
  let aliases := iterate_aliases_for_user u db
  if aliases.isEmpty then
    if file.isSome then ExportAction.removeFile else ExportAction.noWrite
  else
    let owned := db.submissions.filter (fun r => aliases.contains r.user_id)
    let newest := max_inserted_at now owned
    let proceed :=
      let rows := sortAscBy (fun r => r.submission_id) owned
      if rows.isEmpty then
        if file.isSome then ExportAction.removeFile else ExportAction.noWrite
      else ExportAction.writeRows rows
    match file with
    | some mtime => if newest < mtime then ExportAction.noWrite else proceed
    | none => proceed

/-- A file-system effect of the exporter.  Contents are abstracted: the
claims under audit concern only which paths are written directly and
which are published through a temporary file. -/
inductive FileOp
  | openWrite (path : String)
  | writeTemp
  | copyTempTo (path : String)
  | unlinkFile (path : String)
deriving DecidableEq, Repr

/-- Snapshot path of a user's export file
(src/exporter/main.py:134): a two-character lowercase directory then the
handle itself. -/
def user_snapshot_path (u : String) : String :=
  "results/" ++ (u.take 2).toLower ++ "/" ++ u ++ ".json"

/-- File effects of `export_contests` (src/exporter/main.py:36-60): the
published table is opened for writing directly and streamed row by row —
there is no temporary file. -/
def export_contests_ops : List FileOp := [FileOp.openWrite "contests.json"]

/-- File effects of `export_tasks` (src/exporter/main.py:63-86): direct
write of the published file. -/
def export_tasks_ops : List FileOp := [FileOp.openWrite "problems.json"]

/-- File effects of `export_contests_tasks` (src/exporter/main.py:89-110):
direct write of the published file. -/
def export_contests_tasks_ops : List FileOp := [FileOp.openWrite "contest-problem.json"]

/-- File effects of `export_submissions_for_user`
(src/exporter/main.py:133-200): nothing on the stale path, an unlink on
the no-data paths, and a write to a temporary file followed by
`shutil.copyfile` into the published path on the regeneration path
(lines 173-197). -/
def export_submissions_for_user_ops (now : Int) (u : String) (db : DB) (file : Option Int) :
    List FileOp :=
  match export_submissions_for_user now u db file with
  | ExportAction.noWrite => []
  | ExportAction.removeFile => [FileOp.unlinkFile (user_snapshot_path u)]
  | ExportAction.writeRows _ => [FileOp.writeTemp, FileOp.copyTempTo (user_snapshot_path u)]

/-- Test fixture: a remote submission of contest "c" with the given
identifier and owner, other fields fixed. -/
def mkRemoteSub (n : Nat) (u : String) : RemoteSub :=
  { submission_id := n
    contest_id := "c"
    task_id := "t"
    user_id := u
    submitted_at := 0
    language_name := "l"
    score := 0
    code_size := 0
    status := "AC"
    execution_time := none
    memory_consumed := none }

/-- Test fixture: the stored row of `mkRemoteSub n u` inserted at time 0. -/
def mkRow (n : Nat) (u : String) : SubmissionRow := toRow 0 (mkRemoteSub n u)

/-- Fixture for the spec's cited divergence example: local mirror holding
identifiers 1..40 of contest "c". -/
def db40 : DB :=
  { users := ["u"]
    submissions := (List.range 40).map (fun i => mkRow (i + 1) "u")
    renamed := [] }

/-- Fixture for the spec's cited divergence example: the remote feed holds
identifiers 1..45 with 15 deleted. -/
def remote40 : Remote :=
  { feed := fun c =>
      if c == "c" then
        (List.range 45).filterMap
          (fun i => if i + 1 == 15 then none else some (mkRemoteSub (i + 1) "u"))
      else []
    status := fun _ _ => 200
    fetch := fun _ n => mkRemoteSub n "u"
    now := 0 }

/-- The mirror after the boundary probe of the cited example: identifier
41 was the only novel insert. -/
def db41 : DB :=
  { users := ["u"]
    submissions := (List.range 40).map (fun i => mkRow (i + 1) "u") ++ [mkRow 41 "u"]
    renamed := [] }

/-- Counterexample fixture for the lowest-broken-page claim: local mirror
holding identifiers 1..80 of contest "c" except 10 (a gap from a lost
insert). -/
def dbCE : DB :=
  { users := ["u"]
    submissions := (List.range 80).filterMap
      (fun i => if i + 1 == 10 then none else some (mkRow (i + 1) "u"))
    renamed := [] }

/-- Counterexample fixture: the remote feed holds identifiers 1..80 with 5
and 50 deleted, so that page 1 is broken, page 2 is clean and page 3 (the
boundary) is broken. -/
def remoteCE : Remote :=
  { feed := fun c =>
      if c == "c" then
        (List.range 80).filterMap
          (fun i => if i + 1 == 5 || i + 1 == 50 then none
                    else some (mkRemoteSub (i + 1) "u"))
      else []
    status := fun _ _ => 200
    fetch := fun _ n => mkRemoteSub n "u"
    now := 0 }

/-- A concrete midpoint choice: probes page 2 of the interval (0, 4)
first, then page 3. -/
def chooseCE : Nat → Nat → Nat := fun l _ => l + 2

/-- Deletion-propagation fixture: a row stored under the historical alias
"old", a row stored under the current handle "new", and the rename edge
old → new. -/
def dbDel : DB :=
  { users := ["old", "new"]
    submissions := [mkRow 1 "old", mkRow 2 "new"]
    renamed := [("old", "new")] }

/-- A remote on which every single-submission re-fetch answers 404. -/
def remoteGone : Remote :=
  { feed := fun _ => []
    status := fun _ _ => 404
    fetch := fun _ n => mkRemoteSub n "u"
    now := 0 }

/-- A remote on which every single-submission re-fetch answers 500, a
transient server error. -/
def remoteErr : Remote :=
  { feed := fun _ => []
    status := fun _ _ => 500
    fetch := fun _ n => mkRemoteSub n "u"
    now := 0 }

/-- Snapshot-staleness fixture: one row submitted at time 0 whose mirror
row was inserted at time 10. -/
def rowStale : SubmissionRow :=
  { mkRow 1 "u" with submitted_at := 0, inserted_at := 10 }

/-- Snapshot-staleness fixture: the store owning only `rowStale`. -/
def dbStale : DB :=
  { users := ["u"]
    submissions := [rowStale]
    renamed := [] }

/-- Exhausted-credit fixture: a store already holding submission 1. -/
def dbK : DB :=
  { users := ["u"]
    submissions := [mkRow 1 "u"]
    renamed := [] }

/-- Exhausted-credit fixture: a synthetic remote stream of 1000
already-known submissions. -/
def remoteK : Remote :=
  { feed := fun _ => List.replicate 1000 (mkRemoteSub 1 "u")
    status := fun _ _ => 200
    fetch := fun _ n => mkRemoteSub n "u"
    now := 0 }

/-- Upsert-return fixture: submission 1 stored under "alice". -/
def dbA9 : DB :=
  { users := ["alice"]
    submissions := [mkRow 1 "alice"]
    renamed := [] }

/-- Upsert-return fixture: submission 1 stored under "bob". -/
def dbB9 : DB :=
  { users := ["bob"]
    submissions := [mkRow 1 "bob"]
    renamed := [] }

/-- Upsert-return fixture: the same submission re-fetched with current
owner "carol". -/
def sub9 : RemoteSub := mkRemoteSub 1 "carol"

/-- Rename-cycle fixture: submission 1 stored under "a" before any rename
is observed. -/
def dbCyc0 : DB :=
  { users := ["a"]
    submissions := [mkRow 1 "a"]
    renamed := [] }

/-- Rename-cycle fixture: the store after the resolver's own insertion
rule processed, in order, submission 1 re-fetched under "b" (the rename
a → b), the novel submission 2 under "b", and submission 2 re-fetched
under "a" (the rename back b → a).  Its edge set is the two-cycle
a → b → a. -/
def dbCyc : DB :=
  (insert_submission 0 (mkRemoteSub 2 "a")
    ((insert_submission 0 (mkRemoteSub 2 "b")
      ((insert_submission 0 (mkRemoteSub 1 "b") dbCyc0).2)).2)).2

/-- Sorting by insertion preserves length. -/
lemma insertAscBy_length (key : α → Nat) (x : α) (l : List α) :
    (insertAscBy key x l).length = l.length + 1 := by
  induction l with
  | nil => rfl
  | cons y ys ih =>
    simp only [insertAscBy]
    split
    · simp
    · simp [ih]

/-- Insertion sort preserves length. -/
lemma sortAscBy_length (key : α → Nat) (l : List α) :
    (sortAscBy key l).length = l.length := by
  induction l with
  | nil => rfl
  | cons x xs ih => simp [sortAscBy, insertAscBy_length, ih]

/-- The submission upsert never removes a stored row. -/
lemma mem_insert_submission (now : Int) (s : RemoteSub) (db : DB) (r : SubmissionRow)
    (h : r ∈ db.submissions) : r ∈ (insert_submission now s db).2.submissions := by
  simp only [insert_submission]
  split
  · exact List.mem_append_left _ h
  · exact h

/-- A non-novel upsert reports `false` and leaves the submissions table
unchanged. -/
lemma insert_submission_known (now : Int) (s : RemoteSub) (db : DB)
    (h : (db.submissions.find? (fun r => r.submission_id == s.submission_id)).isSome) :
    (insert_submission now s db).1 = false ∧
    (insert_submission now s db).2.submissions = db.submissions := by
  cases hf : db.submissions.find? (fun r => r.submission_id == s.submission_id) with
  | none => rw [hf] at h; simp at h
  | some r0 => simp [insert_submission, hf]

/-- The pairwise page walk never removes a stored row. -/
lemma page_walk_mem (now : Int) (ps : List (Option Nat × RemoteSub)) (f : Bool) (db : DB)
    (r : SubmissionRow) (h : r ∈ db.submissions) :
    r ∈ (page_walk now ps f db).2.submissions := by
  induction ps generalizing f db with
  | nil => exact h
  | cons p rest ih =>
    obtain ⟨e, s⟩ := p
    exact ih _ _ (mem_insert_submission now s db r h)

/-- The store side of the page walk is the fold of the upsert over the
remote elements; the brokenness flag never influences it. -/
lemma page_walk_snd (now : Int) (ps : List (Option Nat × RemoteSub)) (f : Bool) (db : DB) :
    (page_walk now ps f db).2 =
      ps.foldl (fun d p => (insert_submission now p.2 d).2) db := by
  induction ps generalizing f db with
  | nil => rfl
  | cons p rest ih =>
    obtain ⟨e, s⟩ := p
    simp only [page_walk, List.foldl_cons]
    exact ih _ _

/-- The brokenness flag of the page walk is the disjunction over slots:
a slot contributes exactly when its local side is present and differs
from the remote identifier. -/
lemma page_walk_fst (now : Int) (ps : List (Option Nat × RemoteSub)) (f : Bool) (db : DB) :
    (page_walk now ps f db).1 =
      (f || ps.any (fun p =>
        match p.1 with
        | none => false
        | some eid => eid != p.2.submission_id)) := by
  induction ps generalizing f db with
  | nil => simp [page_walk]
  | cons p rest ih =>
    obtain ⟨e, s⟩ := p
    simp only [page_walk, List.any_cons]
    rw [ih]
    cases e with
    | none => simp
    | some eid =>
      by_cases hlt : s.submission_id < eid
      · have : (eid != s.submission_id) = true := by simp [bne_iff_ne]; omega
        simp [hlt, this]
      · by_cases hgt : eid < s.submission_id
        · have : (eid != s.submission_id) = true := by simp [bne_iff_ne]; omega
          simp [hlt, hgt, this]
        · have heq : eid = s.submission_id := by omega
          simp [hlt, hgt, heq]

/-- The brokenness probe never removes a stored row. -/
lemma page_broken_mem (remote : Remote) (c : String) (page : Nat) (db : DB)
    (r : SubmissionRow) (h : r ∈ db.submissions) :
    r ∈ (is_submissions_page_broken remote c page db).2.submissions :=
  page_walk_mem _ _ _ _ _ h

/-- The recovery rescan loop never removes a stored row. -/
lemma recovery_go_mem (now : Int) (stream : List RemoteSub) (i c : Nat) (db : DB)
    (r : SubmissionRow) (h : r ∈ db.submissions) :
    r ∈ (recovery_go now stream i c db).1.submissions := by
  induction stream generalizing i c db with
  | nil => exact h
  | cons s rest ih =>
    simp only [recovery_go]
    split
    · split
      · exact mem_insert_submission now s db r h
      · exact ih _ _ _ (mem_insert_submission now s db r h)
    · split
      · exact mem_insert_submission now s db r h
      · exact ih _ _ _ (mem_insert_submission now s db r h)

/-- The binary-search loop never removes a stored row. -/
lemma bsearch_go_mem (choose : Nat → Nat → Nat) (remote : Remote) (c : String)
    (fuel l rr : Nat) (db : DB) (r : SubmissionRow) (h : r ∈ db.submissions) :
    r ∈ (bsearch_go choose remote c fuel l rr db).2.submissions := by
  induction fuel generalizing l rr db with
  | zero => exact h
  | succ fuel ih =>
    simp only [bsearch_go]
    split
    · exact h
    · split
      · exact ih _ _ _ (page_broken_mem remote c _ db r h)
      · exact ih _ _ _ (page_broken_mem remote c _ db r h)

/-- Divergence search never removes a stored row. -/
lemma find_lost_mem (choose : Nat → Nat → Nat) (remote : Remote) (c : String) (db : DB)
    (r : SubmissionRow) (h : r ∈ db.submissions) :
    r ∈ (find_lost_submissions_for_contest choose remote c db).2.submissions := by
  simp only [find_lost_submissions_for_contest]
  split
  · exact h
  · split
    · exact bsearch_go_mem _ _ _ _ _ _ _ _ (page_broken_mem remote c _ db r h)
    · exact page_broken_mem remote c _ db r h

/-- The deleted-account check never removes a stored row (its 200 branch
only upserts the re-scraped record). -/
lemma is_user_deleted_mem (remote : Remote) (u : String) (db : DB) (res : Bool × DB)
    (h : is_user_deleted remote u db = some res)
    (r : SubmissionRow) (hr : r ∈ db.submissions) : r ∈ res.2.submissions := by
  unfold is_user_deleted at h
  cases hload : load_latest_user_id db.renamed (db.renamed.length + 1) u with
  | none => rw [hload] at h; cases h
  | some latest =>
    rw [hload] at h
    dsimp only at h
    by_cases hne : latest != u
    · rw [if_pos hne] at h
      cases h
      exact hr
    · rw [if_neg hne] at h
      cases hfind : db.submissions.find? (fun r => r.user_id == u) with
      | none => rw [hfind] at h; cases h
      | some row =>
        rw [hfind] at h
        dsimp only at h
        by_cases h200 : remote.status row.contest_id row.submission_id == 200
        · rw [if_pos h200] at h
          cases h
          exact mem_insert_submission _ _ _ _ hr
        · rw [if_neg h200] at h
          cases h
          exact hr

/-- When the deleted-account check confirms deletion, it has not touched
the store. -/
lemma is_user_deleted_true_eq (remote : Remote) (u : String) (db : DB) (db2 : DB)
    (h : is_user_deleted remote u db = some (true, db2)) : db2 = db := by
  unfold is_user_deleted at h
  cases hload : load_latest_user_id db.renamed (db.renamed.length + 1) u with
  | none => rw [hload] at h; cases h
  | some latest =>
    rw [hload] at h
    dsimp only at h
    by_cases hne : latest != u
    · rw [if_pos hne] at h; cases h
    · rw [if_neg hne] at h
      cases hfind : db.submissions.find? (fun r => r.user_id == u) with
      | none => rw [hfind] at h; cases h
      | some row =>
        rw [hfind] at h
        dsimp only at h
        by_cases h200 : remote.status row.contest_id row.submission_id == 200
        · rw [if_pos h200] at h; cases h
        · rw [if_neg h200] at h
          cases h
          rfl

/-- On an acyclic edge set, the rename walk visits pairwise distinct
handles, each the source of some stored edge, so fuel exceeding the edge
count cannot run out: the walk ends at a handle with no outgoing edge.
`vs` accumulates the handles already visited. -/
lemma load_latest_aux (edges : List (String × String)) (hacy : AcyclicEdges edges) :
    ∀ (fuel : Nat) (u : String) (vs : List String), vs.Nodup →
      (∀ v ∈ vs, v ∈ edges.map Prod.fst) →
      (∀ v ∈ vs, Relation.TransGen (rename_step edges) v u) →
      edges.length < fuel + vs.length →
      ∃ r, load_latest_user_id edges fuel u = some r ∧
        edges.find? (fun p => p.1 == r) = none := by
  intro fuel
  induction fuel with
  | zero =>
    intro u vs hnd hsub _ hlen
    exfalso
    have hle : vs.length ≤ (edges.map Prod.fst).length :=
      (hnd.subperm (fun v hv => hsub v hv)).length_le
    rw [List.length_map] at hle
    omega
  | succ fuel ih =>
    intro u vs hnd hsub hchain hlen
    cases hfind : edges.find? (fun p => p.1 == u) with
    | none =>
      exact ⟨u, by simp [load_latest_user_id, hfind], hfind⟩
    | some e =>
      have heu : e.1 = u := by
        have hp : (e.1 == u) = true := by simpa using List.find?_some hfind
        exact eq_of_beq hp
      have hmem : e ∈ edges := List.mem_of_find?_eq_some hfind
      have hstep : rename_step edges u e.2 := ⟨e, hfind, rfl⟩
      have hunotin : u ∉ vs := fun hu => hacy u (hchain u hu)
      have h1 : (u :: vs).Nodup := List.nodup_cons.mpr ⟨hunotin, hnd⟩
      have h2 : ∀ v ∈ u :: vs, v ∈ edges.map Prod.fst := by
        intro v hv
        rcases List.mem_cons.mp hv with rfl | hv
        · exact List.mem_map.mpr ⟨e, hmem, heu⟩
        · exact hsub v hv
      have h3 : ∀ v ∈ u :: vs, Relation.TransGen (rename_step edges) v e.2 := by
        intro v hv
        rcases List.mem_cons.mp hv with rfl | hv
        · exact Relation.TransGen.single hstep
        · exact (hchain v hv).tail hstep
      have h4 : edges.length < fuel + (u :: vs).length := by
        rw [List.length_cons]
        omega
      obtain ⟨r, hr, hr2⟩ := ih e.2 (u :: vs) h1 h2 h3 h4
      exact ⟨r, by simp [load_latest_user_id, hfind, hr], hr2⟩

/-- Every step over the single edge ("a", "b") goes from "a" to "b". -/
lemma rename_step_singleton (x y : String)
    (hs : rename_step [("a", "b")] x y) : x = "a" ∧ y = "b" := by
  obtain ⟨e, hf, he2⟩ := hs
  cases hax : (("a" : String) == x) with
  | false => simp [List.find?, hax] at hf
  | true =>
    have hx : ("a" : String) = x := eq_of_beq hax
    simp [List.find?, hax] at hf
    exact ⟨hx.symm, by rw [← he2, ← hf]⟩

/-- The single edge ("a", "b") forms an acyclic set. -/
lemma acyclic_singleton : AcyclicEdges [("a", "b")] := by
  intro u hTG
  obtain ⟨b, hb, hrest⟩ := Relation.TransGen.head'_iff.mp hTG
  obtain ⟨hu, hbb⟩ := rename_step_singleton _ _ hb
  subst hbb
  rcases Relation.ReflTransGen.cases_head hrest with heq | ⟨d, hd, _⟩
  · rw [hu] at heq
    exact (by decide : ("b" : String) ≠ "a") heq
  · obtain ⟨hd1, _⟩ := rename_step_singleton _ _ hd
    exact (by decide : ("b" : String) ≠ "a") hd1

/-- On a stream of already-known submissions the rescan loop consumes
exactly as many elements as it has credit, stopping at the page boundary
where the credit hits zero.  Stated for a credit that is page-aligned
relative to the running index, as the seeded call is. -/
lemma recovery_go_known (now : Int) :
    ∀ (c : Nat) (stream : List RemoteSub) (i : Nat) (db : DB),
      c ≠ 0 → (i + c) % SUBMISSIONS_IN_PAGE = 0 → c ≤ stream.length →
      (∀ s ∈ stream,
        (db.submissions.find? (fun r => r.submission_id == s.submission_id)).isSome) →
      (recovery_go now stream i c db).2 = i + c := by
  intro c
  induction c with
  | zero => intro stream i db hc; exact absurd rfl hc
  | succ c ih =>
    intro stream i db _ hmod hlen hknown
    cases stream with
    | nil => simp at hlen
    | cons s rest =>
      obtain ⟨hnovel, hsubs⟩ := insert_submission_known now s db (hknown s (by simp))
      simp only [recovery_go, hnovel, if_neg Bool.false_ne_true]
      cases c with
      | zero =>
        have hb : ((i + 1) % SUBMISSIONS_IN_PAGE == 0 && (0 + 1 - 1 : Nat) == 0) = true := by
          simp only [Bool.and_eq_true, beq_iff_eq]
          refine ⟨by simpa using hmod, by simp⟩
        rw [if_pos hb]
      | succ c0 =>
        have hcond : ¬(((i + 1) % SUBMISSIONS_IN_PAGE == 0 && (c0 + 1 + 1 - 1 : Nat) == 0) = true) := by
          simp
        rw [if_neg hcond]
        have harr : i + 1 + (c0 + 1) = i + (c0 + 1 + 1) := by omega
        have hmod2 : (i + 1 + (c0 + 1)) % SUBMISSIONS_IN_PAGE = 0 := by
          rw [harr]; exact hmod
        have hres := ih rest (i + 1) (insert_submission now s db).2
          (by omega) hmod2 (by simpa using hlen)
          (by intro t ht; rw [hsubs]; exact hknown t (by simp [ht]))
        have : c0 + 1 + 1 - 1 = c0 + 1 := by omega
        rw [this, hres, harr]

/-- The padded local slice has exactly the page size of slots. -/
lemma expected_slots_length (c : String) (page : Nat) (db : DB) :
    (expected_slots c page db).length = SUBMISSIONS_IN_PAGE := by
  unfold expected_slots
  rw [List.length_take, List.length_append, List.length_replicate]
  omega

/-- The remote slice has at most the page size of submissions. -/
lemma remote_slots_length_le (remote : Remote) (c : String) (page : Nat) :
    (remote_slots remote c page).length ≤ SUBMISSIONS_IN_PAGE := by
  unfold remote_slots
  rw [sortAscBy_length]
  exact List.length_take_le _ _

/-- The submission upsert of a non-novel write: it reports `false`,
leaves the submissions table unchanged, and records a rename edge exactly
when the stored user differs from the fetched one. -/
lemma insert_submission_nonnovel (now : Int) (s : RemoteSub) (db : DB) (stored : String)
    (h : load_user_id_for_submission s.submission_id db = some stored) :
    (insert_submission now s db).1 = false ∧
    (insert_submission now s db).2.submissions = db.submissions ∧
    (insert_submission now s db).2.renamed =
      (if stored == s.user_id then db.renamed
       else insert_rename_edge stored s.user_id db.renamed) := by
  unfold load_user_id_for_submission at h
  cases hf : db.submissions.find? (fun r => r.submission_id == s.submission_id) with
  | none => rw [hf] at h; cases h
  | some r0 =>
    rw [hf] at h
    have hst : r0.user_id = stored := by
      simpa using h
    simp [insert_submission, load_user_id_for_submission, hf, hst]

/-- The deletion of a confirmed-gone user removes exactly the rows whose
stored user_id equals the handle literally, and leaves the other tables
unchanged. -/
lemma apply_deleted_user_literal (remote : Remote) (u : String) (db db2 : DB)
    (h : apply_deleted_user remote u db = some db2) :
    db2.submissions = db.submissions.filter (fun r => !(r.user_id == u)) ∧
    db2.renamed = db.renamed ∧ db2.users = db.users := by
  unfold apply_deleted_user at h
  cases hd : is_user_deleted remote u db with
  | none => rw [hd] at h; cases h
  | some res =>
    rw [hd] at h
    obtain ⟨b, dbm⟩ := res
    cases b with
    | false => cases h
    | true =>
      have hdm : dbm = db := is_user_deleted_true_eq remote u db dbm hd
      subst hdm
      cases h
      exact ⟨rfl, rfl, rfl⟩

/-- Binary-search loop: base case of the iteration. -/
lemma bsearch_go_stop (choose : Nat → Nat → Nat) (remote : Remote) (c : String)
    (fuel l r : Nat) (db : DB) (h : r - l ≤ 1) :
    bsearch_go choose remote c (fuel + 1) l r db = (r, db) := by
  simp [bsearch_go, h]

/-- Binary-search loop: one unfolding of the iteration. -/
lemma bsearch_go_step (choose : Nat → Nat → Nat) (remote : Remote) (c : String)
    (fuel l r : Nat) (db : DB) (h : ¬(r - l ≤ 1)) :
    bsearch_go choose remote c (fuel + 1) l r db =
      (if (is_submissions_page_broken remote c
            (min (max (choose l r) (l + 1)) (r - 1)) db).1 then
        bsearch_go choose remote c fuel l (min (max (choose l r) (l + 1)) (r - 1))
          (is_submissions_page_broken remote c
            (min (max (choose l r) (l + 1)) (r - 1)) db).2
      else
        bsearch_go choose remote c fuel (min (max (choose l r) (l + 1)) (r - 1)) r
          (is_submissions_page_broken remote c
            (min (max (choose l r) (l + 1)) (r - 1)) db).2) := by
  simp [bsearch_go, h]

/-- The exporter skips regeneration when an existing snapshot file is
newer than the latest `inserted_at` among the rows owned by the aliases
of a canonical handle. -/
lemma export_skip_of_fresh (now : Int) (u : String) (db : DB) (mtime : Int)
    (hcanon : db.renamed.find? (fun e => e.1 == u) = none)
    (hfresh : max_inserted_at now (db.submissions.filter
        (fun r => (iterate_aliases_for_user u db).contains r.user_id)) < mtime) :
    export_submissions_for_user now u db (some mtime) = ExportAction.noWrite := by
  have hne : (iterate_aliases_for_user u db).isEmpty = false := by
    unfold iterate_aliases_for_user
    rw [hcanon]
    simp [alias_walk]
  unfold export_submissions_for_user
  dsimp only
  rw [hne]
  simp only [Bool.false_eq_true, if_false]
  rw [if_pos hfresh]

/-- The store left by deleting the confirmed-gone user "new" from
`dbDel`: only the row stored under the historical alias "old" remains. -/
def dbDelAfter : DB :=
  { users := ["old", "new"]
    submissions := [mkRow 1 "old"]
    renamed := [("old", "new")] }

/-- C1 (counterexample): `delete_submissions_around` — invoked by
`scrape_submissions_for_contest` on the fourth recovery of the same page —
removes stored submission rows with no deleted-account confirmation
involved: on a store holding one row it empties the table. -/
theorem delete_submissions_around_removes :
    (delete_submissions_around "c" 1 dbK).2.submissions = [] ∧
    dbK.submissions = [mkRow 1 "u"] := by decide

/-- C1 (amended): submission rows are removed only by `apply_deleted_user`
and by `delete_submissions_around`; the remaining store operations of the
pipeline — the submission upsert, the brokenness probe, the recovery
rescan, the divergence search and the deleted-account check — never
remove a stored row. -/
theorem submission_store_monotone_ops :
    (∀ (now : Int) (s : RemoteSub) (db : DB) (r : SubmissionRow),
        r ∈ db.submissions → r ∈ (insert_submission now s db).2.submissions) ∧
    (∀ (remote : Remote) (c : String) (page : Nat) (db : DB) (r : SubmissionRow),
        r ∈ db.submissions → r ∈ (is_submissions_page_broken remote c page db).2.submissions) ∧
    (∀ (remote : Remote) (c : String) (page : Nat) (db : DB) (r : SubmissionRow),
        r ∈ db.submissions → r ∈ (recovery_rescan remote c page db).1.submissions) ∧
    (∀ (choose : Nat → Nat → Nat) (remote : Remote) (c : String) (db : DB) (r : SubmissionRow),
        r ∈ db.submissions →
        r ∈ (find_lost_submissions_for_contest choose remote c db).2.submissions) ∧
    (∀ (remote : Remote) (u : String) (db : DB) (res : Bool × DB),
        is_user_deleted remote u db = some res →
        ∀ r ∈ db.submissions, r ∈ res.2.submissions) := by
  refine ⟨mem_insert_submission, page_broken_mem,
    fun remote c page db r h => recovery_go_mem _ _ _ _ _ _ h,
    find_lost_mem,
    fun remote u db res h r hr => is_user_deleted_mem remote u db res h r hr⟩

/-- Witness for C1's amended theorem at a concrete store. -/
theorem submission_store_monotone_ops_witness :
    mkRow 1 "u" ∈ (insert_submission 0 (mkRemoteSub 2 "u") dbK).2.submissions ∧
    mkRow 1 "u" ∈ (recovery_rescan remoteK "c" 1 dbK).1.submissions :=
  ⟨submission_store_monotone_ops.1 0 (mkRemoteSub 2 "u") dbK (mkRow 1 "u") (by decide),
   submission_store_monotone_ops.2.2.1 remoteK "c" 1 dbK (mkRow 1 "u") (by decide)⟩

/-- C2 (counterexample): after `apply_deleted_user "new"` on a store with
a rename edge old → new and a row still stored under "old", that row
survives although its stored user_id resolves to "new" through the
rename chain. -/
theorem apply_deleted_user_leaves_alias_rows :
    apply_deleted_user remoteGone "new" dbDel = some dbDelAfter ∧
    dbDelAfter.submissions = [mkRow 1 "old"] ∧
    load_latest_user_id dbDelAfter.renamed (dbDelAfter.renamed.length + 1) "old" =
      some "new" := by decide

/-- C2 (amended): `apply_deleted_user` removes exactly the rows whose
stored user_id equals the handle literally — rows stored under historical
aliases of the handle are untouched, as are the other tables. -/
theorem apply_deletion_removes_literal_rows (remote : Remote) (u : String) (db db2 : DB)
    (h : apply_deleted_user remote u db = some db2) :
    db2.submissions = db.submissions.filter (fun r => !(r.user_id == u)) ∧
    db2.renamed = db.renamed ∧ db2.users = db.users :=
  apply_deleted_user_literal remote u db db2 h

/-- Witness for C2's amended theorem at a concrete store. -/
theorem apply_deletion_removes_literal_rows_witness :
    dbDelAfter.submissions = dbDel.submissions.filter (fun r => !(r.user_id == "new")) ∧
    dbDelAfter.renamed = dbDel.renamed ∧ dbDelAfter.users = dbDel.users :=
  apply_deletion_removes_literal_rows remoteGone "new" dbDel dbDelAfter (by decide)

/-- C9 (counterexample): the upsert's return value on a non-novel write is
only the was-novel Boolean — two stores holding different user_ids for the
same submission identifier produce identical return values, so the caller
cannot read the previously stored user_id off the result. -/
theorem insert_submission_returns_only_flag :
    (insert_submission 0 sub9 dbA9).1 = false ∧
    (insert_submission 0 sub9 dbA9).1 = (insert_submission 0 sub9 dbB9).1 ∧
    load_user_id_for_submission 1 dbA9 ≠ load_user_id_for_submission 1 dbB9 := by decide

/-- C9 (amended): on a non-novel write `insert_submission` returns only
the flag `false`; it loads the previously stored user_id itself and
records the rename edge internally when that user differs from the
fetched owner, leaving the submissions table unchanged. -/
theorem insert_submission_nonnovel_internal (now : Int) (s : RemoteSub) (db : DB)
    (stored : String)
    (h : load_user_id_for_submission s.submission_id db = some stored) :
    (insert_submission now s db).1 = false ∧
    (insert_submission now s db).2.submissions = db.submissions ∧
    (insert_submission now s db).2.renamed =
      (if stored == s.user_id then db.renamed
       else insert_rename_edge stored s.user_id db.renamed) :=
  insert_submission_nonnovel now s db stored h

/-- Witness for C9's amended theorem at a concrete store. -/
theorem insert_submission_nonnovel_internal_witness :
    (insert_submission 0 sub9 dbA9).1 = false ∧
    (insert_submission 0 sub9 dbA9).2.submissions = dbA9.submissions ∧
    (insert_submission 0 sub9 dbA9).2.renamed =
      (if "alice" == sub9.user_id then dbA9.renamed
       else insert_rename_edge "alice" sub9.user_id dbA9.renamed) :=
  insert_submission_nonnovel_internal 0 sub9 dbA9 "alice" (by decide)

/-- C10: for a handle with no outgoing rename edge and at least one stored
submission, `is_user_deleted` answers exactly the predicate "the HTTP
status of the sampled submission's page is not 200" — any non-200 status,
transient errors included, confirms deletion — and on such a status
`apply_deleted_user` then removes all rows stored under the handle. -/
theorem is_user_deleted_iff_status (remote : Remote) (u : String) (db : DB)
    (row : SubmissionRow)
    (hcanon : db.renamed.find? (fun e => e.1 == u) = none)
    (hrow : db.submissions.find? (fun r => r.user_id == u) = some row) :
    (is_user_deleted remote u db).map Prod.fst =
      some (!(remote.status row.contest_id row.submission_id == 200)) ∧
    ((remote.status row.contest_id row.submission_id == 200) = false →
      apply_deleted_user remote u db =
        some { db with submissions := db.submissions.filter (fun r => !(r.user_id == u)) }) := by
  have hload : load_latest_user_id db.renamed (db.renamed.length + 1) u = some u := by
    simp [load_latest_user_id, hcanon]
  have hmain : is_user_deleted remote u db =
      (if remote.status row.contest_id row.submission_id == 200 then
        some (false, (insert_submission remote.now
          (remote.fetch row.contest_id row.submission_id) db).2)
      else some (true, db)) := by
    unfold is_user_deleted
    rw [hload]
    dsimp only
    rw [if_neg (by simp), hrow]
  constructor
  · rw [hmain]
    by_cases h200 : remote.status row.contest_id row.submission_id == 200
    · simp [h200]
    · simp [h200]
  · intro h200
    unfold apply_deleted_user
    rw [hmain, if_neg (by simp [h200])]

/-- Witness for C10 at a concrete store and a remote answering 500. -/
theorem is_user_deleted_iff_status_witness :
    (is_user_deleted remoteErr "u" dbK).map Prod.fst =
      some (!(remoteErr.status (mkRow 1 "u").contest_id (mkRow 1 "u").submission_id == 200)) ∧
    ((remoteErr.status (mkRow 1 "u").contest_id (mkRow 1 "u").submission_id == 200) = false →
      apply_deleted_user remoteErr "u" dbK =
        some { dbK with
          submissions := dbK.submissions.filter (fun r => !(r.user_id == "u")) }) :=
  is_user_deleted_iff_status remoteErr "u" dbK (mkRow 1 "u") (by decide) (by decide)

/-- C4: the brokenness probe upserts every remote submission it fetched
for the page, and reports broken exactly when some slot pairs a present
local identifier with a differing remote identifier; slots whose local
side is absent never by themselves break the page. -/
theorem page_broken_iff_slot_mismatch (remote : Remote) (c : String) (page : Nat) (db : DB) :
    ((is_submissions_page_broken remote c page db).1 = true ↔
      ∃ pr ∈ (expected_slots c page db).zip (remote_slots remote c page),
        ∃ eid, pr.1 = some eid ∧ eid ≠ pr.2.submission_id) ∧
    (is_submissions_page_broken remote c page db).2 =
      (remote_slots remote c page).foldl
        (fun d s => (insert_submission remote.now s d).2) db := by
  constructor
  · unfold is_submissions_page_broken
    rw [page_walk_fst]
    simp only [Bool.false_or, List.any_eq_true]
    constructor
    · rintro ⟨pr, hmem, hp⟩
      cases he : pr.1 with
      | none => rw [he] at hp; simp at hp
      | some eid =>
        rw [he] at hp
        refine ⟨pr, hmem, eid, he, ?_⟩
        simpa [bne_iff_ne] using hp
    · rintro ⟨pr, hmem, eid, he, hne⟩
      refine ⟨pr, hmem, ?_⟩
      rw [he]
      simpa [bne_iff_ne] using hne
  · unfold is_submissions_page_broken
    rw [page_walk_snd]
    have hlen : (remote_slots remote c page).length ≤ (expected_slots c page db).length := by
      rw [expected_slots_length]
      exact remote_slots_length_le remote c page
    conv_rhs => rw [← List.map_snd_zip _ _ hlen]
    rw [List.foldl_map]

/-- C5: the exploration credit is seeded at `INSERTED_MAX = 300`; on a
remote stream of 1000 already-known submissions every insert is
non-novel, the credit decreases by one per element, and the rescan stops
exactly at the 300th element — the page boundary at which the credit
reaches zero — rather than consuming the stream. -/
theorem recovery_credit_exhaustion :
    INSERTED_MAX = 300 ∧
    ∀ (remote : Remote) (c : String) (db : DB),
      (remote.feed c).length = 1000 →
      (∀ s ∈ remote.feed c,
        (db.submissions.find? (fun r => r.submission_id == s.submission_id)).isSome) →
      (recovery_rescan remote c 1 db).2 = 300 := by
  refine ⟨rfl, ?_⟩
  intro remote c db hlen hknown
  unfold recovery_rescan
  have hdrop : (1 - 1) * SUBMISSIONS_IN_PAGE = 0 := by norm_num
  rw [hdrop, List.drop_zero]
  have hres := recovery_go_known remote.now INSERTED_MAX (remote.feed c) 0 db
    (by decide) (by decide) (by rw [hlen]; decide) hknown
  simpa [INSERTED_MAX, SUBMISSIONS_IN_PAGE] using hres

/-- Witness for C5 on a synthetic stream of 1000 known submissions. -/
theorem recovery_credit_exhaustion_witness :
    (recovery_rescan remoteK "c" 1 dbK).2 = 300 := by
  refine recovery_credit_exhaustion.2 remoteK "c" dbK ?_ ?_
  · show (List.replicate 1000 (mkRemoteSub 1 "u")).length = 1000
    rw [List.length_replicate]
  · intro s hs
    have hsk : s = mkRemoteSub 1 "u" :=
      List.eq_of_mem_replicate (show s ∈ List.replicate 1000 (mkRemoteSub 1 "u") from hs)
    rw [hsk]
    decide

/-- C6 (counterexample): the resolver's own insertion rule — replaying a
rename a → b and a rename back b → a through `insert_submission` — builds
the cyclic edge set [(a, b), (b, a)], on which the rename walk of
`load_latest_user_id` cycles and its standard fuel budget runs out. -/
theorem rename_rule_builds_cycle :
    dbCyc.renamed = [("a", "b"), ("b", "a")] ∧
    Relation.TransGen (rename_step dbCyc.renamed) "a" "a" ∧
    load_latest_user_id dbCyc.renamed (dbCyc.renamed.length + 1) "a" = none := by
  refine ⟨by decide, ?_, by decide⟩
  have h1 : rename_step dbCyc.renamed "a" "b" := ⟨("a", "b"), by decide, rfl⟩
  have h2 : rename_step dbCyc.renamed "b" "a" := ⟨("b", "a"), by decide, rfl⟩
  exact (Relation.TransGen.single h1).tail h2

/-- C6 (amended): on every acyclic rename-edge set the walk of
`load_latest_user_id` terminates within fuel `|edges| + 1` and returns a
handle with no outgoing edge; the insertion rule itself, however, can
build cyclic sets (see the counterexample). -/
theorem load_latest_terminates_on_acyclic (edges : List (String × String))
    (hacy : AcyclicEdges edges) (u : String) :
    ∃ r, load_latest_user_id edges (edges.length + 1) u = some r ∧
      edges.find? (fun p => p.1 == r) = none :=
  load_latest_aux edges hacy (edges.length + 1) u [] List.nodup_nil
    (by intro v hv; cases hv) (by intro v hv; cases hv) (by simp)

/-- Witness for C6's amended theorem on the acyclic single edge a → b. -/
theorem load_latest_terminates_on_acyclic_witness :
    ∃ r, load_latest_user_id [("a", "b")] ([("a", "b")].length + 1) "a" = some r ∧
      [("a", "b")].find? (fun p => p.1 == r) = none :=
  load_latest_terminates_on_acyclic [("a", "b")] acyclic_singleton "a"

/-- C7 (counterexample): a snapshot file whose modification time (5) is
strictly after the latest `submitted_at` (0) of the user's rows is
nevertheless regenerated, because the source compares the file time
against the row-insertion time `inserted_at` (10), not against
`submitted_at`. -/
theorem snapshot_rewritten_despite_older_submissions :
    spec_latest_submitted_at 99 (dbStale.submissions.filter
      (fun r => (iterate_aliases_for_user "u" dbStale).contains r.user_id)) < 5 ∧
    export_submissions_for_user 99 "u" dbStale (some 5) =
      ExportAction.writeRows [rowStale] := by decide

/-- C7 (amended): rerunning the Snapshotter leaves a canonical user's
snapshot file untouched when the file's modification time is strictly
after the latest `inserted_at` (the row-insertion time) among the rows
owned by the user's aliases. -/
theorem export_skip_when_inserted_newer (now : Int) (u : String) (db : DB) (mtime : Int)
    (hcanon : db.renamed.find? (fun e => e.1 == u) = none)
    (hfresh : max_inserted_at now (db.submissions.filter
        (fun r => (iterate_aliases_for_user u db).contains r.user_id)) < mtime) :
    export_submissions_for_user now u db (some mtime) = ExportAction.noWrite :=
  export_skip_of_fresh now u db mtime hcanon hfresh

/-- Witness for C7's amended theorem at a concrete store. -/
theorem export_skip_when_inserted_newer_witness :
    export_submissions_for_user 7 "u" dbK (some 5) = ExportAction.noWrite :=
  export_skip_when_inserted_newer 7 "u" dbK 5 (by decide) (by decide)

/-- C8 (counterexample): the three whole-dataset tables are not published
through a temporary file — each is opened for writing directly at its
published path, so their traces contain no temp-then-publish step. -/
theorem tables_written_in_place :
    export_contests_ops = [FileOp.openWrite "contests.json"] ∧
    export_tasks_ops = [FileOp.openWrite "problems.json"] ∧
    export_contests_tasks_ops = [FileOp.openWrite "contest-problem.json"] :=
  ⟨rfl, rfl, rfl⟩

/-- C8 (amended): only the per-user snapshot files are published in the
temp-then-copy style — their trace is empty, a single unlink, or a write
to a temporary file followed by a copy into the published path — while
the three whole-dataset tables are written directly in place. -/
theorem user_snapshots_published_via_temp :
    (∀ (now : Int) (u : String) (db : DB) (file : Option Int),
        export_submissions_for_user_ops now u db file = [] ∨
        export_submissions_for_user_ops now u db file =
          [FileOp.unlinkFile (user_snapshot_path u)] ∨
        export_submissions_for_user_ops now u db file =
          [FileOp.writeTemp, FileOp.copyTempTo (user_snapshot_path u)]) ∧
    export_contests_ops = [FileOp.openWrite "contests.json"] ∧
    export_tasks_ops = [FileOp.openWrite "problems.json"] ∧
    export_contests_tasks_ops = [FileOp.openWrite "contest-problem.json"] := by
  refine ⟨?_, rfl, rfl, rfl⟩
  intro now u db file
  unfold export_submissions_for_user_ops
  cases hE : export_submissions_for_user now u db file with
  | noWrite => exact Or.inl rfl
  | removeFile => exact Or.inr (Or.inl rfl)
  | writeRows rows => exact Or.inr (Or.inr rfl)

/-- One unfolding of the binary-search loop, keyed on nonzero fuel so it
can be applied at numeric literals. -/
lemma bsearch_go_unfold (choose : Nat → Nat → Nat) (remote : Remote) (c : String)
    (fuel l r : Nat) (db : DB) (hf : fuel ≠ 0) :
    bsearch_go choose remote c fuel l r db =
      if r - l ≤ 1 then (r, db)
      else
        (if (is_submissions_page_broken remote c
              (min (max (choose l r) (l + 1)) (r - 1)) db).1 then
          bsearch_go choose remote c (fuel - 1) l (min (max (choose l r) (l + 1)) (r - 1))
            (is_submissions_page_broken remote c
              (min (max (choose l r) (l + 1)) (r - 1)) db).2
        else
          bsearch_go choose remote c (fuel - 1) (min (max (choose l r) (l + 1)) (r - 1)) r
            (is_submissions_page_broken remote c
              (min (max (choose l r) (l + 1)) (r - 1)) db).2) := by
  cases fuel with
  | zero => exact absurd rfl hf
  | succ n =>
    by_cases h : r - l ≤ 1
    · rw [bsearch_go_stop _ _ _ _ _ _ _ h, if_pos h]
    · rw [bsearch_go_step _ _ _ _ _ _ _ h, if_neg h]
      simp

/-- C3 (counterexample): on a mirror holding 1..80 except 10 against a
remote feed holding 1..80 except 5 and 50, page 1 is broken and page 2 is
not, yet the randomized search — here probing page 2 first and then the
boundary region — returns page 3, not the lowest broken page 1. -/
theorem bsearch_returns_nonlowest_page :
    (find_lost_submissions_for_contest chooseCE remoteCE "c" dbCE).1 = some 3 ∧
    (is_submissions_page_broken remoteCE "c" 1 dbCE).1 = true ∧
    (is_submissions_page_broken remoteCE "c" 2 dbCE).1 = false := by decide

/-- Self-healing fixture: local mirror holding identifiers 1..41 of
contest "c" except 25 (a single gap). -/
def dbH : DB :=
  { users := ["u"]
    submissions := (List.range 41).filterMap
      (fun i => if i + 1 == 25 then none else some (mkRow (i + 1) "u"))
    renamed := [] }

/-- Self-healing fixture: the remote feed holds identifiers 1..41 intact,
so the boundary probe's upserts repair the local gap. -/
def remoteH : Remote :=
  { feed := fun c =>
      if c == "c" then (List.range 41).map (fun i => mkRemoteSub (i + 1) "u") else []
    status := fun _ _ => 200
    fetch := fun _ n => mkRemoteSub n "u"
    now := 0 }

/-- A midpoint choice that re-probes the boundary page 2 first. -/
def chooseH : Nat → Nat → Nat := fun _ _ => 2

/-- Supporting fact for C3's amendment: because every probe upserts the
remote rows it compared, the mirror can heal during the search, and the
search can then return a page that is clean and was never broken.  Here
the boundary probe of page 2 is broken and inserts the missing id 25; a
legitimate midpoint draw re-probes page 2, now clean, and the search
returns page 3 — clean both before the search and in the returned
store. -/
lemma search_can_return_clean_page :
    (is_submissions_page_broken remoteH "c" 2 dbH).1 = true ∧
    (is_submissions_page_broken remoteH "c" 3 dbH).1 = false ∧
    (find_lost_submissions_for_contest chooseH remoteH "c" dbH).1 = some 3 ∧
    (is_submissions_page_broken remoteH "c" 3
      (find_lost_submissions_for_contest chooseH remoteH "c" dbH).2).1 = false := by
  decide

/-- C3 (amended): the search does not in general return the lowest broken
page (counterexample above), and the page it returns need not even be
broken, since the probes' upserts can heal the mirror mid-search
(`search_can_return_clean_page` above).  What does hold is the spec's
cited example: with the local mirror holding 1..40 and the remote
additionally holding 41..45 with 15 deleted, every page below the
boundary is broken, and for every midpoint choice sequence the search
returns page 1 and not page 3. -/
theorem cited_example_returns_page_one (choose : Nat → Nat → Nat) :
    (find_lost_submissions_for_contest choose remote40 "c" db40).1 = some 1 := by
  have hnp : get_next_page "c" db40 = 3 := by decide
  have hb2 : is_submissions_page_broken remote40 "c" (3 - 1) db40 = (true, db41) := by decide
  have hb1 : is_submissions_page_broken remote40 "c" 1 db41 = (true, db41) := by decide
  have hb2b : is_submissions_page_broken remote40 "c" 2 db41 = (true, db41) := by decide
  have e1 : ∀ fuel, fuel ≠ 0 → bsearch_go choose remote40 "c" fuel 0 1 db41 = (1, db41) := by
    intro fuel hf
    rw [bsearch_go_unfold choose remote40 "c" fuel 0 1 db41 hf, if_pos (by norm_num)]
  have e2 : bsearch_go choose remote40 "c" 2 0 2 db41 = (1, db41) := by
    rw [bsearch_go_unfold choose remote40 "c" 2 0 2 db41 (by norm_num),
      if_neg (by norm_num)]
    have hm2 : min (max (choose 0 2) (0 + 1)) (2 - 1) = 1 := by omega
    rw [hm2, hb1]
    simpa using e1 (2 - 1) (by norm_num)
  have e3 : bsearch_go choose remote40 "c" 3 0 3 db41 = (1, db41) := by
    rw [bsearch_go_unfold choose remote40 "c" 3 0 3 db41 (by norm_num),
      if_neg (by norm_num)]
    have hm : min (max (choose 0 3) (0 + 1)) (3 - 1) = 1 ∨
        min (max (choose 0 3) (0 + 1)) (3 - 1) = 2 := by omega
    rcases hm with h | h
    · rw [h, hb1]
      simpa using e1 (3 - 1) (by norm_num)
    · rw [h, hb2b]
      simpa using e2
  unfold find_lost_submissions_for_contest
  dsimp only
  rw [hnp, if_neg (by norm_num), hb2]
  dsimp only
  rw [e3]
  simp

/-- Witness for C3's amended theorem at a concrete midpoint choice. -/
theorem cited_example_returns_page_one_witness :
    (find_lost_submissions_for_contest chooseCE remote40 "c" db40).1 = some 1 :=
  cited_example_returns_page_one chooseCE

end AtCoderProblemsStatic
